import Mathlib

/-!
Verification development for the scoped symbol/type context engine and
constant-expression evaluator of the erg compiler snapshot.

The embedding is shallow: the Rust tagged unions `Type`, `TyParam`,
`ValueObj`, `TypeObj` and the free-variable cells become Lean inductive
types; the interior mutability of free variables (Rc-shared cells) is
modelled by keeping the link state inline in the term tree and having the
mutating operations return the rewritten term (explicit state passing over
tree-shaped heaps).  Components of the repository that are outside the
provided sources (the `ty`/`free` module, unification, the subtyping
oracle, hint generation) are modelled from the specification or abstracted
as oracle fields of a context record; each such definition says so in its
doc comment.
-/

namespace ErgSpec

/-- Semantic operator kinds, mirroring `OpKind` of the type-parameter
module (the enum is referenced throughout `context/eval.rs`). -/
inductive OpKind where
  | add | sub | mul | div | floorDiv | mod | pow | pos | neg
  | eq | ne | lt | le | gt | ge | asOp | and | or | not | invert
  | bitAnd | bitOr | bitXor | shl | shr
deriving DecidableEq, Repr

/-- Modelled from the spec: `OpKind::is_comparison` (the implementation
lives in the absent `typaram` module); the comparison operators are
`==`, `!=`, `<`, `<=`, `>`, `>=`. -/
def OpKind.isCmp : OpKind → Bool
  | .eq | .ne | .lt | .le | .gt | .ge => true
  | _ => false

/-- The `meta_t` of a builtin `TypeObj`: the code only ever distinguishes
`Type::ClassType`, `Type::TraitType` and everything else. -/
inductive MetaK where
  | classTy | traitTy | plainTy
deriving DecidableEq, Repr

mutual

/-- `Type` of the type algebra, restricted to the constructors the
verified claims exercise (monomorphic and polymorphic named types, free
type variables, `Never`, `Failure`, projections). -/
inductive ETy where
  | mono (name : String)
  | poly (name : String) (params : List ETyParam)
  | fvar (fv : FreeTyVar)
  | never
  | failure
  | proj (lhs : ETy) (attr : String)

/-- A free type variable cell.  `unbound` carries the variable's name, its
generalization flag and its (sub, sup) bound pair; `linked` is a permanent
link; `undoableLinked` keeps the previous cell state so that `undo`
can restore it (the transaction stack of the substitution engine). -/
inductive FreeTyVar where
  | unbound (name : String) (generalized : Bool) (sub : ETy) (sup : ETy)
  | linked (t : ETy)
  | undoableLinked (t : ETy) (prev : FreeTyVar)

/-- `TyParam`, restricted to the constructors the verified claims
exercise (`Dict`, `Tuple`, `Set`, `Record`, `Proj`, lambdas are omitted). -/
inductive ETyParam where
  | value (v : EValue)
  | type (t : ETy)
  | fvar (fv : FreeTyParamVar)
  | erased (t : ETy)
  | array (elems : List ETyParam)
  | mono (name : String)
  | app (name : String) (args : List ETyParam)
  | bin (op : OpKind) (lhs rhs : ETyParam)

/-- A free type-parameter variable cell, with the same three states as
`FreeTyVar`. -/
inductive FreeTyParamVar where
  | unbound (name : String) (generalized : Bool)
  | linked (tp : ETyParam)
  | undoableLinked (tp : ETyParam) (prev : FreeTyParamVar)

/-- `ValueObj`, restricted to the constructors the verified claims
exercise (collections and subroutine values are omitted). -/
inductive EValue where
  | bool (b : Bool)
  | int (i : Int)
  | nat (n : Nat)
  | str (s : String)
  | illegal
  | type (t : ETypeObj)

/-- `TypeObj`: either a builtin type with its meta type, or a generated
(user-defined) type descriptor. -/
inductive ETypeObj where
  | builtin (metaT : MetaK) (t : ETy)
  | generated (g : EGenTypeObj)

/-- `GenTypeObj`, restricted to the variants `eval_or_type` /
`eval_and_type` construct plus a generic carrier. -/
inductive EGenTypeObj where
  | union (t : ETy) (lhs rhs : ETypeObj)
  | inter (t : ETy) (lhs rhs : ETypeObj)
  | other (t : ETy)

end

/-! ### Free-variable cell operations

Modelled from the spec: the `free` module of the repository is not among
the provided sources.  A cell is `linked` for both the permanent and the
undoable state (`is_linked` in the source matches both, and `crack`
follows either); `undo` pops the saved previous state. -/

/-- `is_linked` on a type free variable (true for permanent and undoable
links). -/
def FreeTyVar.isLinked : FreeTyVar → Bool
  | .unbound .. => false
  | .linked _ => true
  | .undoableLinked .. => true

/-- `is_undoable_linked` on a type free variable. -/
def FreeTyVar.isUndoableLinked : FreeTyVar → Bool
  | .undoableLinked .. => true
  | _ => false

/-- `undo` on a type free variable: restore the saved previous state. -/
def FreeTyVar.undo : FreeTyVar → FreeTyVar
  | .undoableLinked _ prev => prev
  | other => other

/-- `is_linked` on a type-parameter free variable. -/
def FreeTyParamVar.isLinked : FreeTyParamVar → Bool
  | .unbound .. => false
  | .linked _ => true
  | .undoableLinked .. => true

/-- `is_undoable_linked` on a type-parameter free variable. -/
def FreeTyParamVar.isUndoableLinked : FreeTyParamVar → Bool
  | .undoableLinked .. => true
  | _ => false

/-- `undo` on a type-parameter free variable. -/
def FreeTyParamVar.undo : FreeTyParamVar → FreeTyParamVar
  | .undoableLinked _ prev => prev
  | other => other

/-! ### Simple observers on the algebra

These model `Type`/`TyParam` methods whose implementations live in the
absent `ty` module; each follows the behaviour the spec describes
(qualified names, type-parameter lists that follow links, lower bounds of
sandwiched variables, generalization flags). -/

/-- Modelled from the spec: `Type::qual_name`.  Named types answer their
name, linked free variables forward to their target, unbound free
variables answer their own name. -/
def ETy.qualName : ETy → String
  | .mono n => n
  | .poly n _ => n
  | .fvar (.unbound n _ _ _) => n
  | .fvar (.linked t) => t.qualName
  | .fvar (.undoableLinked t _) => t.qualName
  | .never => "Never"
  | .failure => "Failure"
  | .proj _ attr => attr

/-- Modelled from the spec: `Type::typarams`.  Polymorphic types answer
their parameter list (in the source this is a clone whose free-variable
cells alias the original; the inline-cell embedding instead pairs this
observer with `ETy.setTyparams` below), linked free variables forward to
their target, everything else answers the empty list. -/
def ETy.typarams : ETy → List ETyParam
  | .poly _ ps => ps
  | .fvar (.linked t) => t.typarams
  | .fvar (.undoableLinked t _) => t.typarams
  | _ => []

/-- Write back a rewritten type-parameter list at the positions
`ETy.typarams` reads from: this is how the embedding renders the source's
in-place mutation of the (shared) parameter cells. -/
def ETy.setTyparams : ETy → List ETyParam → ETy
  | .poly n _, ps => .poly n ps
  | .fvar (.linked t), ps => .fvar (.linked (t.setTyparams ps))
  | .fvar (.undoableLinked t prev), ps => .fvar (.undoableLinked (t.setTyparams ps) prev)
  | other, _ => other

/-- Modelled from the spec: `Type::get_sub` — the registered lower bound
of a sandwiched free variable ("the concrete type has a registered lower
bound/subtype"). -/
def ETy.getSub : ETy → Option ETy
  | .fvar (.unbound _ _ sub _) => some sub
  | .fvar (.linked t) => t.getSub
  | .fvar (.undoableLinked t _) => t.getSub
  | _ => none

/-- `Type::is_free_var`: matches the free-variable constructor in any
state. -/
def ETy.isFreeVar : ETy → Bool
  | .fvar _ => true
  | _ => false

/-- Modelled from the spec: `Type::is_unbound_var` — an unbound free
variable (linked variables forward to their target). -/
def ETy.isUnboundVar : ETy → Bool
  | .fvar (.unbound ..) => true
  | .fvar (.linked t) => t.isUnboundVar
  | .fvar (.undoableLinked t _) => t.isUnboundVar
  | _ => false

/-- Modelled from the spec: `Type::is_generalized` — a generalized
(quantified) free variable; linked variables forward to their target. -/
def ETy.isGeneralized : ETy → Bool
  | .fvar (.unbound _ g _ _) => g
  | .fvar (.linked t) => t.isGeneralized
  | .fvar (.undoableLinked t _) => t.isGeneralized
  | _ => false

/-- `Type::undoable_link`: push the current cell state and install an
undoable link to `target` (a no-op on non-variables; the source only
calls it on free variables). -/
def ETy.undoableLink (qt : ETy) (target : ETy) : ETy :=
  match qt with
  | .fvar fv => .fvar (.undoableLinked target fv)
  | other => other

/-- Modelled from the spec: `TyParam::is_unbound_var`. -/
def ETyParam.isUnboundVar : ETyParam → Bool
  | .fvar (.unbound ..) => true
  | .fvar (.linked tp) => tp.isUnboundVar
  | .fvar (.undoableLinked tp _) => tp.isUnboundVar
  | .type t => t.isUnboundVar
  | _ => false

/-- Modelled from the spec: `TyParam::is_generalized`. -/
def ETyParam.isGeneralized : ETyParam → Bool
  | .fvar (.unbound _ g) => g
  | .fvar (.linked tp) => tp.isGeneralized
  | .fvar (.undoableLinked tp _) => tp.isGeneralized
  | .type t => t.isGeneralized
  | _ => false

/-- `is_generalized` on a type-parameter free-variable cell (the guard of
the `TyParam::FreeVar` arm of `substitute_typaram`). -/
def FreeTyParamVar.isGeneralized : FreeTyParamVar → Bool
  | .unbound _ g => g
  | .linked tp => tp.isGeneralized
  | .undoableLinked tp _ => tp.isGeneralized

/-- `GenTypeObj::into_typ` / `GenTypeObj::typ`: the carried type. -/
def EGenTypeObj.intoTyp : EGenTypeObj → ETy
  | .union t _ _ => t
  | .inter t _ _ => t
  | .other t => t

/-- Rewrite the carried type of a generated type object. -/
def EGenTypeObj.setTyp : EGenTypeObj → ETy → EGenTypeObj
  | .union _ l r, t => .union t l r
  | .inter _ l r, t => .inter t l r
  | .other _, t => .other t

/-- `TypeObj::typ` / `TypeObj::into_typ`: the underlying type. -/
def ETypeObj.typ : ETypeObj → ETy
  | .builtin _ t => t
  | .generated g => g.intoTyp

/-- Rewrite the underlying type of a type object (the embedding's
rendering of mutation through the shared cell the source's
`into_typ` hands out). -/
def ETypeObj.setTyp : ETypeObj → ETy → ETypeObj
  | .builtin m _, t => .builtin m t
  | .generated g, t => .generated (g.setTyp t)

mutual

/-- Modelled from the spec: `Type::has_no_unbound_var` — no unbound free
variable is reachable (links are followed). -/
def ETy.hasNoUnboundVar : ETy → Bool
  | .mono _ => true
  | .poly _ ps => ETyParam.listHasNoUnboundVar ps
  | .fvar (.unbound ..) => false
  | .fvar (.linked t) => t.hasNoUnboundVar
  | .fvar (.undoableLinked t _) => t.hasNoUnboundVar
  | .never => true
  | .failure => true
  | .proj l _ => l.hasNoUnboundVar

/-- `has_no_unbound_var` over a parameter list. -/
def ETyParam.listHasNoUnboundVar : List ETyParam → Bool
  | [] => true
  | tp :: rest => tp.hasNoUnboundVar && ETyParam.listHasNoUnboundVar rest

/-- Modelled from the spec: `TyParam::has_no_unbound_var`. -/
def ETyParam.hasNoUnboundVar : ETyParam → Bool
  | .value v => v.hasNoUnboundVar
  | .type t => t.hasNoUnboundVar
  | .fvar (.unbound ..) => false
  | .fvar (.linked tp) => tp.hasNoUnboundVar
  | .fvar (.undoableLinked tp _) => tp.hasNoUnboundVar
  | .erased t => t.hasNoUnboundVar
  | .array es => ETyParam.listHasNoUnboundVar es
  | .mono _ => true
  | .app _ args => ETyParam.listHasNoUnboundVar args
  | .bin _ l r => l.hasNoUnboundVar && r.hasNoUnboundVar

/-- `has_no_unbound_var` on values (only type values can carry one; the
cases spell out `ETypeObj.typ` so the recursion is structural). -/
def EValue.hasNoUnboundVar : EValue → Bool
  | .type (.builtin _ t) => t.hasNoUnboundVar
  | .type (.generated (.union t _ _)) => t.hasNoUnboundVar
  | .type (.generated (.inter t _ _)) => t.hasNoUnboundVar
  | .type (.generated (.other t)) => t.hasNoUnboundVar
  | _ => true

end

/-- `convert_value_into_type` (context/eval.rs): values that denote types
convert; the collection and subroutine arms of the source act on
constructors this embedding omits; every other value is returned as the
error payload. -/
def convertValueIntoType : EValue → Except EValue ETy
  | .type (.builtin _ t) => .ok t
  | .type (.generated g) => .ok g.intoTyp
  | other => .error other

/-- `convert_tp_into_type` (context/eval.rs): linked free variables are
cracked, type and named parameters convert structurally, values go
through `convert_value_into_type`; anything else is returned as the error
payload (the collection arms of the source act on constructors this
embedding omits). -/
def convertTpIntoType : ETyParam → Except ETyParam ETy
  | .fvar (.linked tp) => convertTpIntoType tp
  | .fvar (.undoableLinked tp _) => convertTpIntoType tp
  | .type t => .ok t
  | .mono n => .ok (.mono n)
  | .app n args => .ok (.poly n args)
  | .value v => (convertValueIntoType v).mapError ETyParam.value
  | other => .error other

/-! ### Evaluator errors and the evaluation context

`EvalError` payloads are kept to what the verified claims inspect.  The
`.fuel` variant only arises from exhausting the explicit recursion budget
of the fueled substitution engine (the source recursion has no such
budget; every claim is settled away from this variant). -/

/-- Evaluation errors (`EvalError` kinds of `context/eval.rs`). -/
inductive EvalErr where
  | unreachable
  | notAType
  | featureErr
  | typeNotFound (t : ETy)
  | noTraitImpl (sub sup : ETy) (hint : Option String)
  | noCandidate (t : ETy) (hint : Option String)
  | fuel

/-- Outcome of the candidate search of `eval_proj` (steps 5–6 of the
resolver contract): a context yielded a projection result, the subject
had no nominal supertype contexts at all, or the search exhausted all
candidates. -/
inductive SearchOutcome where
  | found (t : ETy)
  | noTypeCtxs
  | notFound

/-- The slice of `Context` the constant evaluator needs, with the
operations implemented outside the provided sources abstracted as oracle
fields: the type algebra (`union` / `intersection` / `complement`), the
per-operator value tables (`try_add` …, abstracted as `tryOp`), the
subtyping oracle, `get_tp_t` with its `unwrap_or(Obj)` (`tpTOrObj`),
trait facts, coercion, recursive projection evaluation (`eval_t_params`),
hint generation, and `Type` equality (`PartialEq`). -/
structure EvalCtx where
  union : ETy → ETy → ETy
  intersection : ETy → ETy → ETy
  complement : ETy → ETy
  tryOp : OpKind → EValue → EValue → Option EValue
  supertypeOf : ETy → ETy → Bool
  tpTOrObj : ETyParam → ETy
  isTrait : ETy → Bool
  traitImplExists : ETy → ETy → Bool
  coerce : ETy → Except EvalErr ETy
  evalTParams : ETy → Except EvalErr ETy
  search : ETy → Option ETy → String → SearchOutcome
  mismatchHint : ETy → ETy → Option String
  noCandHint : ETy → Option String
  tyEq : ETy → ETy → Bool

/-! ### Constant evaluator: binary and unary operations -/

/-- `eval_or_type`: class/class and trait/trait builtins unite into a
builtin of the same meta type, other builtin pairs into a plain builtin
type, and any other pair into a generated union type object. -/
def evalOrType (ctx : EvalCtx) : ETypeObj → ETypeObj → EValue
  | .builtin .classTy l, .builtin .classTy r => .type (.builtin .classTy (ctx.union l r))
  | .builtin .traitTy l, .builtin .traitTy r => .type (.builtin .traitTy (ctx.union l r))
  | .builtin _ l, .builtin _ r => .type (.builtin .plainTy (ctx.union l r))
  | l, r => .type (.generated (.union (ctx.union l.typ r.typ) l r))

/-- `eval_and_type`: the intersection counterpart of `evalOrType`. -/
def evalAndType (ctx : EvalCtx) : ETypeObj → ETypeObj → EValue
  | .builtin .classTy l, .builtin .classTy r => .type (.builtin .classTy (ctx.intersection l r))
  | .builtin .traitTy l, .builtin .traitTy r => .type (.builtin .traitTy (ctx.intersection l r))
  | .builtin _ l, .builtin _ r => .type (.builtin .plainTy (ctx.intersection l r))
  | l, r => .type (.generated (.inter (ctx.intersection l.typ r.typ) l r))

/-- `eval_not_type`: builtins complement; the generated-type arm of the
source is a `FIXME` fallthrough that yields the `Illegal` sentinel. -/
def evalNotType (ctx : EvalCtx) : ETypeObj → EValue
  | .builtin .classTy t => .type (.builtin .classTy (ctx.complement t))
  | .builtin .traitTy t => .type (.builtin .traitTy (ctx.complement t))
  | .builtin _ t => .type (.builtin .plainTy (ctx.complement t))
  | _ => .illegal

/-- `eval_bin`: arithmetic and comparison operators delegate to the value
tables (`None` becomes the internal `unreachable` error); `Or|BitOr`,
`And|BitAnd` and `BitXor` act pointwise on booleans, bitwise on integers,
and (except xor) algebraically on type values; every other operand shape
is the internal `unreachable` error. -/
def evalBin (ctx : EvalCtx) (op : OpKind) (lhs rhs : EValue) : Except EvalErr EValue :=
  match op with
  | .add | .sub | .mul | .div | .floorDiv | .gt | .ge | .lt | .le | .eq | .ne =>
    match ctx.tryOp op lhs rhs with
    | some v => .ok v
    | none => .error .unreachable
  | .or | .bitOr =>
    match lhs, rhs with
    | .bool l, .bool r => .ok (.bool (l || r))
    | .int l, .int r => .ok (.int (Int.lor l r))
    | .type l, .type r => .ok (evalOrType ctx l r)
    | _, _ => .error .unreachable
  | .and | .bitAnd =>
    match lhs, rhs with
    | .bool l, .bool r => .ok (.bool (l && r))
    | .int l, .int r => .ok (.int (Int.land l r))
    | .type l, .type r => .ok (evalAndType ctx l r)
    | _, _ => .error .unreachable
  | .bitXor =>
    match lhs, rhs with
    | .bool l, .bool r => .ok (.bool (xor l r))
    | .int l, .int r => .ok (.int (Int.xor l r))
    | _, _ => .error .unreachable
  | _ => .error .unreachable

/-- `eval_unary_val`: `Pos`/`Neg`/`Invert` are unimplemented (internal
`unreachable` errors); `Not` negates booleans and complements type
values; everything else is unreachable. -/
def evalUnaryVal (ctx : EvalCtx) (op : OpKind) (val : EValue) : Except EvalErr EValue :=
  match op with
  | .pos => .error .unreachable
  | .neg => .error .unreachable
  | .invert => .error .unreachable
  | .not =>
    match val with
    | .bool b => .ok (.bool (!b))
    | .type t => .ok (evalNotType ctx t)
    | _ => .error .unreachable
  | _ => .error .unreachable

/-- `eval_bin_tp`: the ordered arms of the source match (values, `Add` on
dicts/arrays, linked free variables cracked, unbound free variables under
comparison assumed `true`, erased placeholders under comparison checked
against the subtyping oracle, pending `bin` terms for remaining free
variables, feature error otherwise), with the Rust guard fallthrough
spelled out as nested matches.  The dict arm of the source acts on a
constructor this embedding omits. -/
def evalBinTp (ctx : EvalCtx) (op : OpKind) : ETyParam → ETyParam → Except EvalErr ETyParam
  | .value lv, .value rv => (evalBin ctx op lv rv).map ETyParam.value
  | .array l, .array r =>
    if op = .add then .ok (.array (l ++ r)) else .error .featureErr
  | .fvar (.linked t), r => evalBinTp ctx op t r
  | .fvar (.undoableLinked t _), r => evalBinTp ctx op t r
  | .fvar fv, r =>
    if op.isCmp then .ok (.value (.bool true))
    else
      match r with
      | .fvar (.linked u) => evalBinTp ctx op (.fvar fv) u
      | .fvar (.undoableLinked u _) => evalBinTp ctx op (.fvar fv) u
      | .erased t => .ok (.erased t)
      | _ => .ok (.bin op (.fvar fv) r)
  | .erased t, r =>
    if op.isCmp && ctx.supertypeOf t (ctx.tpTOrObj r) then .ok (.value (.bool true))
    else
      match r with
      | .fvar (.linked u) => evalBinTp ctx op (.erased t) u
      | .fvar (.undoableLinked u _) => evalBinTp ctx op (.erased t) u
      | .fvar _ => if op.isCmp then .ok (.value (.bool true)) else .ok (.erased t)
      | .erased u =>
        if op.isCmp && ctx.supertypeOf (ctx.tpTOrObj (.erased t)) u then .ok (.value (.bool true))
        else .ok (.erased t)
      | _ => .ok (.erased t)
  | l, r =>
    match r with
    | .fvar (.linked u) => evalBinTp ctx op l u
    | .fvar (.undoableLinked u _) => evalBinTp ctx op l u
    | .fvar fv => if op.isCmp then .ok (.value (.bool true)) else .ok (.bin op l (.fvar fv))
    | .erased u =>
      if op.isCmp && ctx.supertypeOf (ctx.tpTOrObj l) u then .ok (.value (.bool true))
      else .ok (.erased u)
    | _ => .error .featureErr
termination_by l r => sizeOf l + sizeOf r

/-! ### Projection resolver (`eval_proj`)

The candidate search (steps 5–6: same-name context, nominal supertype
contexts, trait-filtered method lists, `validate_and_project`) is
abstracted as the `search` oracle; the claims below condition on its
outcome.  The embedding returns the result together with the final state
of the subject term, rendering the source's in-place permanent link of
the free variable (`lhs.link(&Never)`).  The `cfg!(feature = "debug")`
switches are modelled in their release (non-debug) position, where the
bounds are coerced before being put in the error payload. -/

/-- The `sub == Type::Never` test of `eval_proj` (constructor identity;
the source compares with `PartialEq`). -/
def ETy.isNever : ETy → Bool
  | .never => true
  | _ => false

/-- The coerce-and-retry tail of `eval_proj` (step 7, second half): coerce
the whole subject, retry the projection once if that changed it, and
otherwise fail with a `no_candidate_error` carrying a heuristic hint. -/
def evalProjCoerceRetry (ctx : EvalCtx) (lhs : ETy) (rhs : String) :
    Except EvalErr ETy × ETy :=
  match ctx.coerce lhs with
  | .error e => (.error e, lhs)
  | .ok coerced =>
    if ctx.tyEq lhs coerced then
      (.error (.noCandidate (.proj lhs rhs) (ctx.noCandHint (.proj lhs rhs))), lhs)
    else
      (ctx.evalTParams (.proj coerced rhs), lhs)

/-- `eval_proj`: absorb `Never`/`Failure`, crack linked variables into a
recursive evaluation, use the lower bound of an unbound variable as the
search subject with its upper bound as constraint, defer when the lower
bound is still `Never`, run the candidate search, and on exhaustion
either report a missing trait implementation (permanently linking the
variable to `Never` first) or coerce and retry once. -/
def evalProj (ctx : EvalCtx) (lhs : ETy) (rhs : String) : Except EvalErr ETy × ETy :=
  match lhs with
  | .never => (.ok .never, lhs)
  | .failure => (.ok .failure, lhs)
  | .fvar (.linked t) => (ctx.evalTParams (.proj t rhs), lhs)
  | .fvar (.undoableLinked t _) => (ctx.evalTParams (.proj t rhs), lhs)
  | .fvar (.unbound nm g sub sup) =>
    if sub.isNever then (.ok (.proj lhs rhs), lhs)
    else
      match ctx.search sub (some sup) rhs with
      | .found t => (.ok t, lhs)
      | .noTypeCtxs => (.error (.typeNotFound sub), lhs)
      | .notFound =>
        if ctx.isTrait sup && !ctx.traitImplExists sub sup then
          let lhsLinked : ETy := .fvar (.linked .never)
          match ctx.coerce sub with
          | .error e => (.error e, lhsLinked)
          | .ok subC =>
            match ctx.coerce sup with
            | .error e => (.error e, lhsLinked)
            | .ok supC =>
              (.error (.noTraitImpl subC supC (ctx.mismatchHint supC subC)), lhsLinked)
        else
          evalProjCoerceRetry ctx (.fvar (.unbound nm g sub sup)) rhs
  | other =>
    if other.isNever then (.ok (.proj other rhs), other)
    else
      match ctx.search other none rhs with
      | .found t => (.ok t, other)
      | .noTypeCtxs => (.error (.typeNotFound other), other)
      | .notFound => evalProjCoerceRetry ctx other rhs

/-! ### Transactional substitution engine

`substitute_typarams` / `substitute_typaram` / `substitute_type`
(context/eval.rs) are embedded with an explicit fuel budget because their
recursion descends through link targets, which the termination checker
cannot follow structurally.  Fuel is consumed only at the two back edges
of the call graph (the lower-bound retry and the nested
`substitute_typarams` inside `substitute_type`).  `sub_unify` /
`sub_unify_tp` are external to the provided sources and their errors are
logged and discarded at every call site here, so they are modelled as
no-ops (the spec calls this unification non-destructive).  Functions
return the rewritten quantified term, rendering the source's mutation of
the shared free-variable cells. -/

mutual

/-- `substitute_typarams`: requires matching qualified names and arities;
on mismatch retry against the concrete side's registered lower bound if
one exists and otherwise succeed vacuously; on match substitute each
corresponding parameter pair.  The fuel argument decreases at every
level of the embedding's recursion (the source recursion is unbudgeted;
`.error .fuel` never arises with enough fuel). -/
def substituteTyparams : Nat → ETy → ETy → Except EvalErr ETy
  | 0, _, _ => .error .fuel
  | fuel + 1, qt, st =>
    let qtps := qt.typarams
    let stps := st.typarams
    if qt.qualName ≠ st.qualName ∨ qtps.length ≠ stps.length then
      match st.getSub with
      | some sub => substituteTyparams fuel qt sub
      | none => .ok qt
    else
      (substituteList fuel qtps stps).map qt.setTyparams

/-- The parameter-pair loop of `substitute_typarams` (`zip` over the two
parameter lists). -/
def substituteList : Nat → List ETyParam → List ETyParam → Except EvalErr (List ETyParam)
  | 0, _, _ => .error .fuel
  | _ + 1, [], _ => .ok []
  | _ + 1, _ :: _, [] => .ok []
  | fuel + 1, q :: qs, s :: ss =>
    (substituteTyparam fuel q s).bind fun q2 =>
      (substituteList fuel qs ss).map fun rest => q2 :: rest

/-- `substitute_typaram`: a generalized free parameter variable is
undoably linked to the concrete side (unless that side is itself an
unbound generalized variable); type-valued and type-value-valued
parameters recurse through `substitute_type`; everything else is left
alone.  The `sub_unify_tp` call of the source has its errors discarded
and is modelled as a no-op. -/
def substituteTyparam : Nat → ETyParam → ETyParam → Except EvalErr ETyParam
  | 0, _, _ => .error .fuel
  | fuel + 1, qtp, stp =>
    match qtp with
    | .fvar fv =>
      if fv.isGeneralized then
        if !stp.isUnboundVar || !stp.isGeneralized then
          .ok (.fvar (.undoableLinked stp fv))
        else
          .ok (.fvar fv)
      else .ok (.fvar fv)
    | .type qt => (substituteType fuel stp qt).map ETyParam.type
    | .value (.type tobj) =>
      (substituteType fuel stp tobj.typ).map fun qt2 => .value (.type (tobj.setTyp qt2))
    | other => .ok other

/-- `substitute_type`: convert the concrete parameter to a type (failing
with `not_a_type_error` otherwise), undoably link the quantified side
when it is a generalized free variable, recurse structurally into the
parameters, and finish with the source's `has_no_unbound_var` early
return and its (modelled as no-op, non-destructive) `sub_unify` — both
without further effect here. -/
def substituteType : Nat → ETyParam → ETy → Except EvalErr ETy
  | 0, _, _ => .error .fuel
  | fuel + 1, stp, qt =>
    match convertTpIntoType stp with
    | .error _ => .error .notAType
    | .ok st =>
      let qt2 :=
        if qt.isGeneralized && qt.isFreeVar && (!st.isUnboundVar || !st.isGeneralized) then
          qt.undoableLink st
        else qt
      if !st.isUnboundVar || !st.isGeneralized then
        substituteTyparams fuel qt2 st
      else
        .ok qt2

end

mutual

/-- `undo_substitute_typarams`: walk the substituted quantified type's
parameter positions (following links, as `typarams` does in the source)
and reverse every undoable link found at those positions.  Note the
source undoes the variable itself for a `TyParam::FreeVar` or a
`TyParam::Type` holding a free variable, but for a
`TyParam::Value(ValueObj::Type(t))` it only recurses into `t.typ()`'s own
parameters. -/
def undoSubstituteTyparams : ETy → ETy
  | .poly n ps => .poly n (undoTpList ps)
  | .fvar (.linked t) => .fvar (.linked (undoSubstituteTyparams t))
  | .fvar (.undoableLinked t prev) => .fvar (.undoableLinked (undoSubstituteTyparams t) prev)
  | other => other

/-- The parameter loop of `undo_substitute_typarams`. -/
def undoTpList : List ETyParam → List ETyParam
  | [] => []
  | tp :: rest => undoTp tp :: undoTpList rest

/-- One arm of the `undo_substitute_typarams` match: undo an undoably
linked parameter variable, undo a free-variable-shaped type parameter,
recurse into other type parameters and into type-valued values. -/
def undoTp : ETyParam → ETyParam
  | .fvar (.undoableLinked _ prev) => .fvar prev
  | .fvar other => .fvar other
  | .type (.fvar fv) => .type (.fvar fv.undo)
  | .type t => .type (undoSubstituteTyparams t)
  | .value (.type (.builtin m t)) => .value (.type (.builtin m (undoSubstituteTyparams t)))
  | .value (.type (.generated (.union t l r))) =>
    .value (.type (.generated (.union (undoSubstituteTyparams t) l r)))
  | .value (.type (.generated (.inter t l r))) =>
    .value (.type (.generated (.inter (undoSubstituteTyparams t) l r)))
  | .value (.type (.generated (.other t))) =>
    .value (.type (.generated (.other (undoSubstituteTyparams t))))
  | other => other

end

mutual

/-- Property checker (not part of the source): every free variable
reachable from a type is in the unbound, unlinked state. -/
def tyFvsUnbound : ETy → Bool
  | .mono _ => true
  | .poly _ ps => tpListFvsUnbound ps
  | .fvar (.unbound ..) => true
  | .fvar (.linked _) => false
  | .fvar (.undoableLinked ..) => false
  | .never => true
  | .failure => true
  | .proj l _ => tyFvsUnbound l

/-- `tyFvsUnbound` over a parameter list. -/
def tpListFvsUnbound : List ETyParam → Bool
  | [] => true
  | tp :: rest => tpFvsUnbound tp && tpListFvsUnbound rest

/-- Property checker: every free variable reachable from a type parameter
is in the unbound, unlinked state. -/
def tpFvsUnbound : ETyParam → Bool
  | .value (.type (.builtin _ t)) => tyFvsUnbound t
  | .value (.type (.generated (.union t _ _))) => tyFvsUnbound t
  | .value (.type (.generated (.inter t _ _))) => tyFvsUnbound t
  | .value (.type (.generated (.other t))) => tyFvsUnbound t
  | .value _ => true
  | .type t => tyFvsUnbound t
  | .fvar (.unbound ..) => true
  | .fvar (.linked _) => false
  | .fvar (.undoableLinked ..) => false
  | .erased t => tyFvsUnbound t
  | .array es => tpListFvsUnbound es
  | .mono _ => true
  | .app _ args => tpListFvsUnbound args
  | .bin _ l r => tpFvsUnbound l && tpFvsUnbound r

end

/-! ### Scope context (compiler/erg_compiler/context/mod.rs)

`Context` owns its outer scope by value (`outer: Option<Box<Context>>`),
so the scope chain is a tree value here.  The module caches are collapsed
to the one entry this code path consults: the `modCache` field holds the
context registered at the reserved `"<builtins>"` path (the source's
`mod_cache.ref_ctx(Path::new("<builtins>")).unwrap()`; the `unwrap`
panic on a cache without that entry is not modelled).  Payload-only
fields that no verified claim reads (bounds, predicates, method lists,
nested type registries, patches) are trimmed; the round-trip claims are
insensitive to them because `grow`/`pop` move the whole struct. -/

/-- `ContextKind` (the `Class`/`Trait`/`Module` names carry a `K` suffix
to avoid Lean keywords). -/
inductive ContextKind where
  | func
  | proc
  | classK
  | methodDefs
  | traitK
  | structuralTrait
  | patch (base : ETy)
  | structuralPatch (base : ETy)
  | gluePatch (sub sup : ETy)
  | moduleK
  | instant
  | dummy

/-- The `self.kind == ContextKind::Module` test of `path()`. -/
def ContextKind.isModule : ContextKind → Bool
  | .moduleK => true
  | _ => false

/-- `Visibility` (erg_common): public names qualify with `.`, private
ones with `::`. -/
inductive Visibility where
  | publicVis
  | privateVis

/-- `Visibility::is_public`. -/
def Visibility.isPublic : Visibility → Bool
  | .publicVis => true
  | .privateVis => false

/-- `VarInfo`, trimmed to the declared type (the only field the verified
claims read). -/
structure VarInfo where
  t : ETy

/-- Type-check errors (`TyCheckError` kinds of the scope-context
claims). -/
inductive TCErr where
  | noVar (causedBy : String) (name : String) (suggestion : Option String)
  | uninitialized (causedBy : String) (name : String) (t : ETy)

/-- The non-recursive payload of a `Context` node.  `cfg` stands for the
whole `ErgConfig` (cloned wholesale by `grow`), `tvCtx` for the opaque
`TyVarContext` option, `level` for the nesting level
(`Context::TOP_LEVEL`, whose value lives outside the provided sources,
is taken as 1). -/
structure ContextCore where
  name : String
  cfg : String
  kind : ContextKind
  superClasses : List ETy
  superTraits : List ETy
  decls : List (String × VarInfo)
  params : List (Option String × VarInfo)
  locals : List (String × VarInfo)
  consts : List (String × EValue)
  tvCtx : Option Nat
  level : Nat

/-- The `Default` payload: a `<dummy>` context of kind `Dummy` with empty
registries. -/
def ContextCore.default : ContextCore :=
  { name := "<dummy>", cfg := "", kind := .dummy, superClasses := [], superTraits := []
    decls := [], params := [], locals := [], consts := [], tvCtx := none, level := 1 }

/-- A scope context node: payload, owned outer scope, and the two module
caches (collapsed to their builtins entries). -/
inductive Context where
  | mk (core : ContextCore) (outer : Option Context) (modCache : Option Context)
      (pyModCache : Option Context)

/-- The payload of a context. -/
def Context.core : Context → ContextCore
  | .mk c _ _ _ => c

/-- `Context::get_outer` (as a field read; the source returns a
borrow). -/
def Context.outer : Context → Option Context
  | .mk _ o _ _ => o

/-- The Erg module cache handle, collapsed to its builtins entry. -/
def Context.modCache : Context → Option Context
  | .mk _ _ m _ => m

/-- The Python module cache handle, collapsed likewise. -/
def Context.pyModCache : Context → Option Context
  | .mk _ _ _ p => p

/-- The context's qualified name. -/
def Context.name (c : Context) : String := c.core.name

/-- The context's kind. -/
def Context.kind (c : Context) : ContextKind := c.core.kind

/-- The context's declared-but-uninitialized names. -/
def Context.decls (c : Context) : List (String × VarInfo) := c.core.decls

/-- The context's defined locals. -/
def Context.locals (c : Context) : List (String × VarInfo) := c.core.locals

/-- `Context::default()`: a fresh `<dummy>` context with no outer and no
caches. -/
def Context.default : Context := .mk ContextCore.default none none none

/-- `Context::path()`: recurse to the outermost ancestor; a rootless
module answers its name, anything else the builtins sentinel. -/
def Context.path : Context → String
  | .mk _ (some o) _ _ => Context.path o
  | .mk core none _ _ =>
    if core.kind.isModule then core.name else "<builtins>"

/-- `Context::get_builtins()`: `None` inside the builtins context itself
(that avoids infinite loops), otherwise the module cache's builtins
entry. -/
def Context.getBuiltins (c : Context) : Option Context :=
  if c.path ≠ "<builtins>" then c.modCache else none

/-- `Context::grow`: qualify the name with `.` (public) or `::`
(private), demote the current context to be the child's outer, and
install a fresh context that inherits the configuration and cache
handles (the source returns `Ok(())` unconditionally). -/
def Context.grow (self : Context) (name : String) (kind : ContextKind) (vis : Visibility)
    (tvCtx : Option Nat) : Context :=
  let qname := if vis.isPublic then self.name ++ "." ++ name else self.name ++ "::" ++ name
  Context.mk
    { ContextCore.default with
      cfg := self.core.cfg, tvCtx := tvCtx, name := qname, kind := kind }
    (some self) self.modCache self.pyModCache

/-- `Context::pop`, returning (new live context, popped context).  With
an outer, the parent becomes live and the child is returned (its outer
slot holding the default the source's `mem::take` leaves in the box); at
top level the root itself is returned and a fresh default becomes
live. -/
def Context.pop : Context → Context × Context
  | .mk core (some parent) mc pmc => (parent, .mk core (some Context.default) mc pmc)
  | .mk core none mc pmc => (Context.default, .mk core none mc pmc)

/-- Association-list lookup keyed by name, returning the stored (key,
value) pair. -/
def assocFind : List (String × VarInfo) → String → Option (String × VarInfo)
  | [], _ => none
  | (k, v) :: rest, n => if k = n then some (k, v) else assocFind rest n

/-- Modelled from the spec: `Context::get_local_kv` (inquire module, not
among the provided sources) — "looks up `name` in local
declarations", i.e. the defined locals of this scope. -/
def Context.getLocalKv (c : Context) (name : String) : Option (String × VarInfo) :=
  assocFind c.core.locals name

/-- `Context::get_var_info`: local hit, else recurse into
`get_outer().or_else(get_builtins)`, else a `no_var_error` carrying the
similar-name suggestion (`get_similar_name` lives outside the provided
sources and is the `sim` oracle). -/
def Context.getVarInfo (sim : Context → String → Option String) :
    Context → String → Except TCErr (String × VarInfo)
  | .mk core outerC mc pmc, name =>
    match assocFind core.locals name with
    | some kv => .ok kv
    | none =>
      match outerC with
      | some parent => Context.getVarInfo sim parent name
      | none =>
        if Context.path (.mk core none mc pmc) ≠ "<builtins>" then
          match mc with
          | some b => Context.getVarInfo sim b name
          | none => .error (.noVar core.name name (sim (.mk core none mc pmc) name))
        else .error (.noVar core.name name (sim (.mk core none mc pmc) name))

/-- `Context::check_decls`: one `uninitialized_error` per declared but
never initialized name, all collected; `Ok` only when there are none. -/
def Context.checkDecls (c : Context) : Except (List TCErr) Unit :=
  let errs := c.decls.map (fun p => TCErr.uninitialized c.name p.1 p.2.t)
  if errs.isEmpty then .ok () else .error errs

/-- `Context::check_decls_and_pop`, returning (result, new live
context): `check_decls` first (leaving the context untouched on
failure), then `pop`. -/
def Context.checkDeclsAndPop (c : Context) : Except (List TCErr) Context × Context :=
  match c.checkDecls with
  | .error e => (.error e, c)
  | .ok _ => (.ok (c.pop).2, (c.pop).1)

/-! ### Module cache (crates/erg_compiler/module/cache.rs)

`ModuleEntry.module` is an opaque token standing for the
reference-counted `ModuleContext` (the `Arc::try_unwrap(..).unwrap()` in
`initialize` assumes single ownership and is not modelled).  The shared
wrapper's locking is concurrency plumbing with no sequential content, so
the embedding works on the inner cache. -/

/-- A cached module entry: monotonic id, optional compiled unit, module
context token. -/
structure CModuleEntry where
  id : Nat
  hir : Option Unit
  module : Nat

/-- The module cache: normalized-path-keyed entries plus the id
counter. -/
structure CModuleCache where
  cache : List (String × CModuleEntry)
  lastId : Nat

/-- `Dict::insert`: replace in place when the key exists, append
otherwise. -/
def insertEntry : List (String × CModuleEntry) → String → CModuleEntry →
    List (String × CModuleEntry)
  | [], k, v => [(k, v)]
  | (k0, v0) :: rest, k, v =>
    if k0 = k then (k, v) :: rest else (k0, v0) :: insertEntry rest k v

/-- `Dict::get` by path. -/
def lookupEntry : List (String × CModuleEntry) → String → Option CModuleEntry
  | [], _ => none
  | (k0, v0) :: rest, k => if k0 = k then some v0 else lookupEntry rest k

/-- `Dict::remove`: the removed entry (if any) and the remaining map. -/
def removeEntry : List (String × CModuleEntry) → String →
    Option CModuleEntry × List (String × CModuleEntry)
  | [], _ => (none, [])
  | (k0, v0) :: rest, k =>
    if k0 = k then (some v0, rest)
    else
      match removeEntry rest k with
      | (r, rest2) => (r, (k0, v0) :: rest2)

/-- `ModuleCache::register`: bump `last_id`, insert the new entry at the
path (ids are never reused). -/
def CModuleCache.register (mc : CModuleCache) (path : String) (hir : Option Unit)
    (module : Nat) : CModuleCache :=
  let newId := mc.lastId + 1
  { cache := insertEntry mc.cache path { id := newId, hir := hir, module := module }
    lastId := newId }

/-- `SharedModuleCache::initialize`: remove the builtins entry — bailing
out (cache untouched) when there is none — then clear everything and
re-register the builtins module at the sentinel path. -/
def CModuleCache.initializeCache (mc : CModuleCache) : CModuleCache :=
  match removeEntry mc.cache "<builtins>" with
  | (none, _) => mc
  | (some builtin, _) =>
    let cleared : CModuleCache := { cache := [], lastId := mc.lastId }
    cleared.register "<builtins>" none builtin.module

/-! ### Concrete instances used by witnesses and counterexamples -/

/-- Property checker (not part of the source): the operand is an unbound,
non-linked free parameter variable. -/
def ETyParam.isUnboundFvTp : ETyParam → Bool
  | .fvar (.unbound ..) => true
  | _ => false

/-- A concrete evaluation context: trivial algebra oracles, every search
exhausted, every type a trait with no registered implementation, identity
coercion, no hints. -/
def demoCtx : EvalCtx where
  union := fun a _ => a
  intersection := fun a _ => a
  complement := fun a => a
  tryOp := fun _ _ _ => none
  supertypeOf := fun _ _ => false
  tpTOrObj := fun _ => ETy.mono "Obj"
  isTrait := fun _ => true
  traitImplExists := fun _ _ => false
  coerce := fun t => .ok t
  evalTParams := fun t => .ok t
  search := fun _ _ _ => .notFound
  mismatchHint := fun _ _ => none
  noCandHint := fun _ => none
  tyEq := fun _ _ => false

/-- The generalized free variable of the undo-symmetry failing input. -/
def c1Alpha : FreeTyVar := .unbound "alpha" true .never (.mono "Obj")

/-- Failing input, quantified side: `F(α)` with the parameter carried as
a type-valued `ValueObj` (`TyParam::Value(ValueObj::Type(α))`). -/
def c1Q : ETy := .poly "F" [.value (.type (.builtin .plainTy (.fvar c1Alpha)))]

/-- Failing input, concrete side: `F(Int)` with the parameter carried the
same way. -/
def c1C : ETy := .poly "F" [.value (.type (.builtin .plainTy (.mono "Int")))]

/-- The quantified side after `substitute_typarams`: α undoably linked to
`Int` inside the value-wrapped parameter. -/
def c1QSub : ETy :=
  .poly "F" [.value (.type (.builtin .plainTy (.fvar (.undoableLinked (.mono "Int") c1Alpha))))]

/-- A local variable entry used by the scope-context witnesses. -/
def demoVi : VarInfo := { t := .mono "Nat" }

/-- A builtins module context (path resolves to the reserved sentinel)
holding one local. -/
def demoBuiltins : Context :=
  .mk { ContextCore.default with
        name := "<builtins>"
        kind := ContextKind.moduleK
        locals := [("print", demoVi)] }
    none none none

/-- A root module context with no outer scope whose cache holds the
builtins context. -/
def demoRoot : Context :=
  .mk { ContextCore.default with name := "<module>", kind := .moduleK } none
    (some demoBuiltins) none

/-- A root context with no outer scope and no caches, used by the
`pop`-at-top-level claims. -/
def demoRootCtx : Context :=
  .mk { ContextCore.default with name := "top", kind := .moduleK } none none none

/-- A context with one outstanding declaration, used by the
`check_decls_and_pop` witness. -/
def demoDeclCtx : Context :=
  .mk { ContextCore.default with
        name := "f"
        kind := ContextKind.func
        decls := [("x", demoVi)] }
    (some demoRootCtx) none none

/-- A similar-name oracle that never suggests anything. -/
def demoSim : Context → String → Option String := fun _ _ => none

/-- A module cache holding one non-builtins module only. -/
def demoCacheNoB : CModuleCache :=
  { cache := [("foo.er", { id := 5, hir := none, module := 42 })], lastId := 5 }

/-- A module cache holding the builtins entry and one other module. -/
def demoCacheWithB : CModuleCache :=
  { cache := [("<builtins>", { id := 0, hir := none, module := 7 }),
              ("foo.er", { id := 5, hir := none, module := 42 })], lastId := 5 }

/-! ## Helper lemmas (shared, not tied to any single claim) -/

/-- The removed entry of `Dict::remove` is exactly the looked-up one. -/
theorem removeEntry_fst (l : List (String × CModuleEntry)) (k : String) :
    (removeEntry l k).1 = lookupEntry l k := by
  induction l with
  | nil => rfl
  | cons hd tl ih =>
    obtain ⟨k0, v0⟩ := hd
    by_cases hk : k0 = k
    · simp [removeEntry, lookupEntry, hk]
    · simp [removeEntry, lookupEntry, hk, ih]

/-! ## Claim theorems -/

/-- C3: for every context and every `grow(name, kind, vis, tv)` call
immediately followed by `pop()`, the live context after `pop()` is
structurally equal (the whole value: name, kind and contents) to the
live context before the `grow` call. -/
theorem grow_pop_round_trip (c : Context) (name : String) (kind : ContextKind)
    (vis : Visibility) (tv : Option Nat) :
    ((c.grow name kind vis tv).pop).1 = c := rfl

/-- C4 counterexample: at the root, `pop()` does not leave the live
context unchanged and does not return a fresh default context — it does
the opposite (`mem::take(self)`): the root itself is returned and the
live context becomes the default. -/
theorem pop_root_claim_counterexample :
    ¬ ((Context.pop demoRootCtx).1 = demoRootCtx ∧
       (Context.pop demoRootCtx).2 = Context.default) := by
  intro h
  have h1 : Context.default = demoRootCtx := h.1
  have h2 := congrArg Context.name h1
  exact absurd h2 (by decide)

/-- C4 amended: at the root (no outer scope), `pop()` installs a fresh
default context as the live context and returns the root context itself;
it never panics (the embedding is total). -/
theorem pop_root_spec (c : Context) (h : c.outer = none) :
    c.pop = (Context.default, c) := by
  obtain ⟨core, o, mc, pmc⟩ := c
  cases o with
  | none => rfl
  | some p => exact absurd h (by simp [Context.outer])

/-- C4 amended, witness at a concrete root context. -/
theorem pop_root_spec_witness :
    Context.pop demoRootCtx = (Context.default, demoRootCtx) :=
  pop_root_spec demoRootCtx rfl

/-- C5: when the qualified names or arities of the quantified and
concrete types disagree, `substitute_typarams` retries against the
concrete side's registered lower bound when one exists, and otherwise
succeeds vacuously, returning the quantified type unchanged (no links
created) and never an error. -/
theorem substitute_typarams_mismatch_spec (fuel : Nat) (qt st : ETy)
    (h : qt.qualName ≠ st.qualName ∨ qt.typarams.length ≠ st.typarams.length) :
    (∀ sub, st.getSub = some sub →
      substituteTyparams (fuel + 1) qt st = substituteTyparams fuel qt sub) ∧
    (st.getSub = none → substituteTyparams (fuel + 1) qt st = .ok qt) := by
  have hstep : substituteTyparams (fuel + 1) qt st =
      (match st.getSub with
       | some sub => substituteTyparams fuel qt sub
       | none => .ok qt) := by
    simp only [substituteTyparams]
    rw [if_pos h]
  constructor
  · intro sub hsub
    rw [hstep, hsub]
  · intro hnone
    rw [hstep, hnone]

/-- C5 witness: `A` and `B` disagree in name, `B` has no lower bound, so
the substitution succeeds vacuously with no fuel at all. -/
theorem substitute_typarams_mismatch_spec_witness :
    substituteTyparams 1 (.mono "A") (.mono "B") = .ok (.mono "A") :=
  (substitute_typarams_mismatch_spec 0 (.mono "A") (.mono "B")
    (Or.inl (by decide))).2 rfl

/-- C7: `check_decls_and_pop` performs the pop exactly when `decls` is
empty; otherwise it fails with the collected list of `uninitialized`
errors — exactly one per name still present in `decls` (the list is the
image of `decls` under the error constructor, so it has one entry per
declaration) — and leaves the live context untouched. -/
theorem check_decls_and_pop_spec (c : Context) :
    (c.decls = [] → c.checkDeclsAndPop = (.ok (c.pop).2, (c.pop).1)) ∧
    (c.decls ≠ [] →
      c.checkDeclsAndPop =
        (.error (c.decls.map (fun p => TCErr.uninitialized c.name p.1 p.2.t)), c) ∧
      (c.decls.map (fun p => TCErr.uninitialized c.name p.1 p.2.t)).length =
        c.decls.length) := by
  constructor
  · intro h
    simp [Context.checkDeclsAndPop, Context.checkDecls, h]
  · intro h
    refine ⟨?_, by simp⟩
    simp [Context.checkDeclsAndPop, Context.checkDecls, h]

/-- C7 witness: one outstanding declaration yields exactly one
`uninitialized` error and no pop. -/
theorem check_decls_and_pop_spec_witness :
    Context.checkDeclsAndPop demoDeclCtx =
      (.error [TCErr.uninitialized "f" "x" (.mono "Nat")], demoDeclCtx) :=
  ((check_decls_and_pop_spec demoDeclCtx).2 (by simp [demoDeclCtx, Context.decls, Context.core])).1

/-- C9 counterexample: on a cache that has no entry at the reserved
sentinel path, `initialize()` bails out and leaves every other module in
place, so the cache afterwards does not consist of exactly the builtins
entry. -/
theorem initialize_no_builtins_counterexample :
    ¬ ∃ e, (CModuleCache.initializeCache demoCacheNoB).cache = [("<builtins>", e)] := by
  rintro ⟨e, he⟩
  simp [CModuleCache.initializeCache, demoCacheNoB, removeEntry] at he

/-- C9 amended: when the cache holds an entry at the reserved sentinel
path, `initialize()` resets it to exactly the builtins entry
(re-registered, with a fresh id), discarding everything else; when it
holds none, `initialize()` leaves the cache unchanged. -/
theorem initialize_spec (mc : CModuleCache) :
    (∀ b, lookupEntry mc.cache "<builtins>" = some b →
      CModuleCache.initializeCache mc =
        { cache := [("<builtins>", { id := mc.lastId + 1, hir := none, module := b.module })]
          lastId := mc.lastId + 1 }) ∧
    (lookupEntry mc.cache "<builtins>" = none → CModuleCache.initializeCache mc = mc) := by
  constructor
  · intro b hb
    have h := removeEntry_fst mc.cache "<builtins>"
    rw [hb] at h
    unfold CModuleCache.initializeCache
    rcases hr : removeEntry mc.cache "<builtins>" with ⟨f, rest⟩
    rw [hr] at h
    simp only at h
    subst h
    simp [CModuleCache.register, insertEntry]
  · intro hn
    have h := removeEntry_fst mc.cache "<builtins>"
    rw [hn] at h
    unfold CModuleCache.initializeCache
    rcases hr : removeEntry mc.cache "<builtins>" with ⟨f, rest⟩
    rw [hr] at h
    simp only at h
    subst h
    rfl

/-- C9 amended, witness: a cache with a builtins entry and one other
module is reset to the builtins entry alone, with a bumped id. -/
theorem initialize_spec_witness :
    CModuleCache.initializeCache demoCacheWithB =
      { cache := [("<builtins>", { id := 6, hir := none, module := 7 })], lastId := 6 } :=
  (initialize_spec demoCacheWithB).1 { id := 0, hir := none, module := 7 } rfl

/-- C1: the undo-symmetry claim fails on the code.  For the matching-name,
matching-arity pair `Q = F(Value(Type(α)))`, `C = F(Value(Type(Int)))`
(`α` generalized and unbound), `substitute_typarams` undoably links `α`
to `Int`, but `undo_substitute_typarams` only recurses into the
parameters of a value-wrapped type instead of undoing the variable
itself, so after substitute-then-undo the variable reachable from `Q` is
still undoably linked rather than restored to its unbound state. -/
theorem substitute_undo_value_type_fv_leaks :
    c1Q.qualName = c1C.qualName ∧
    c1Q.typarams.length = c1C.typarams.length ∧
    tyFvsUnbound c1Q = true ∧
    substituteTyparams 8 c1Q c1C = .ok c1QSub ∧
    undoSubstituteTyparams c1QSub = c1QSub ∧
    tyFvsUnbound c1QSub = false := by
  refine ⟨rfl, rfl, ?_, ?_, ?_, ?_⟩
  · simp [tyFvsUnbound, tpListFvsUnbound, tpFvsUnbound, c1Q, c1Alpha]
  · simp [substituteTyparams, substituteList, substituteTyparam, substituteType,
          c1Q, c1C, c1QSub, c1Alpha, ETy.qualName, ETy.typarams, ETy.setTyparams,
          convertTpIntoType, convertValueIntoType, ETy.isGeneralized, ETy.isFreeVar,
          ETy.isUnboundVar, ETypeObj.typ, ETypeObj.setTyp, ETy.undoableLink,
          FreeTyParamVar.isGeneralized, ETyParam.isGeneralized, ETyParam.isUnboundVar,
          Except.mapError, Except.map, Except.bind]
  · simp [undoSubstituteTyparams, undoTpList, undoTp, c1QSub, c1Alpha]
  · simp [tyFvsUnbound, tpListFvsUnbound, tpFvsUnbound, c1QSub, c1Alpha]

/-- C8: the operator table is not total on type values as claimed — the
`FIXME` arm of `eval_not_type` silently yields the `Illegal` sentinel for
a generated (user-defined) type value instead of computing the
set-complement type (contrast the builtin arm, which does complement). -/
theorem eval_not_generated_type_illegal :
    evalUnaryVal demoCtx .not (.type (.generated (.other (.mono "C")))) = .ok .illegal ∧
    evalUnaryVal demoCtx .not (.type (.builtin .classTy (.mono "C"))) =
      .ok (.type (.builtin .classTy (demoCtx.complement (.mono "C")))) :=
  ⟨rfl, rfl⟩

/-- C6: `get_var_info` answers a local hit directly; on a miss it
recurses into the outer scope when one exists; with no outer it falls
back exactly once to the builtins context obtained from the module cache
(and the builtins context itself — any context whose path is the
reserved sentinel — never falls back again); on a total miss it fails
with a `no_var_error` carrying the similar-name suggestion. -/
theorem get_var_info_spec (sim : Context → String → Option String) (c : Context)
    (name : String) :
    (∀ kv, c.getLocalKv name = some kv → Context.getVarInfo sim c name = .ok kv) ∧
    (c.getLocalKv name = none → ∀ o, c.outer = some o →
      Context.getVarInfo sim c name = Context.getVarInfo sim o name) ∧
    (c.getLocalKv name = none → c.outer = none → ∀ b, c.getBuiltins = some b →
      Context.getVarInfo sim c name = Context.getVarInfo sim b name) ∧
    (c.path = "<builtins>" → c.getBuiltins = none) ∧
    (c.getLocalKv name = none → c.outer = none → c.getBuiltins = none →
      Context.getVarInfo sim c name = .error (.noVar c.name name (sim c name))) := by
  obtain ⟨core, o, mc, pmc⟩ := c
  refine ⟨?_, ?_, ?_, ?_, ?_⟩
  · intro kv hkv
    simp only [Context.getLocalKv, Context.core] at hkv
    cases o with
    | some parent => simp only [Context.getVarInfo, hkv]
    | none =>
      cases mc with
      | some b => simp only [Context.getVarInfo, hkv]
      | none => simp only [Context.getVarInfo, hkv]
  · intro hmiss o2 ho
    simp only [Context.getLocalKv, Context.core] at hmiss
    simp only [Context.outer] at ho
    subst ho
    simp only [Context.getVarInfo, hmiss]
  · intro hmiss ho b hb
    simp only [Context.getLocalKv, Context.core] at hmiss
    simp only [Context.outer] at ho
    subst ho
    rw [Context.getBuiltins] at hb
    by_cases hp : Context.path (.mk core none mc pmc) = "<builtins>"
    · rw [if_neg (by simp [hp])] at hb
      exact absurd hb (by simp)
    · rw [if_pos hp] at hb
      simp only [Context.modCache] at hb
      subst hb
      simp only [Context.getVarInfo, hmiss]
      rw [if_pos hp]
  · intro hp
    rw [Context.getBuiltins, if_neg (by simp [hp])]
  · intro hmiss ho hb
    simp only [Context.getLocalKv, Context.core] at hmiss
    simp only [Context.outer] at ho
    subst ho
    rw [Context.getBuiltins] at hb
    by_cases hp : Context.path (.mk core none mc pmc) = "<builtins>"
    · cases mc with
      | some b =>
        simp only [Context.getVarInfo, hmiss]
        rw [if_neg (by simp [hp])]
        simp [Context.name, Context.core]
      | none =>
        simp only [Context.getVarInfo, hmiss]
        simp [Context.name, Context.core]
    · rw [if_pos hp] at hb
      simp only [Context.modCache] at hb
      subst hb
      simp only [Context.getVarInfo, hmiss]
      rw [if_pos hp]
      simp [Context.name, Context.core]

/-- C6 witness: in a root module whose cache holds the builtins context,
a name defined only in builtins resolves through exactly one fallback,
and the builtins context itself never falls back again. -/
theorem get_var_info_spec_witness :
    Context.getVarInfo demoSim demoRoot "print" = .ok ("print", demoVi) ∧
    Context.getBuiltins demoBuiltins = none := by
  have hroot := get_var_info_spec demoSim demoRoot "print"
  have hbuiltins := get_var_info_spec demoSim demoBuiltins "print"
  refine ⟨?_, hbuiltins.2.2.2.1 rfl⟩
  have step1 := hroot.2.2.1 rfl rfl demoBuiltins rfl
  have step2 := hbuiltins.1 ("print", demoVi) rfl
  exact step1.trans step2

/-- C2: when the candidate search of `eval_proj` is exhausted — for an
unbound free-variable subject whose lower bound is not `Never`: if the
upper bound is a trait with no registered implementation for the lower
bound, the subject is first permanently linked to `Never` (it stays
linked even when coercing the bounds for the error payload fails) and a
"no trait implementation" error is returned; otherwise — also for a
non-variable subject — the subject is coerced and the projection retried
exactly once on the coerced type, and when coercion produced no change a
"no candidate found" error carrying a hint is returned. -/
theorem eval_proj_fallback_spec (ctx : EvalCtx) (nm : String) (g : Bool) (s p : ETy)
    (rhs : String) (hs : ctx.search s (some p) rhs = .notFound)
    (hnever : s.isNever = false) :
    (∀ s2 p2, ctx.isTrait p = true → ctx.traitImplExists s p = false →
      ctx.coerce s = .ok s2 → ctx.coerce p = .ok p2 →
      evalProj ctx (.fvar (.unbound nm g s p)) rhs =
        (.error (.noTraitImpl s2 p2 (ctx.mismatchHint p2 s2)), .fvar (.linked .never))) ∧
    (∀ e, ctx.isTrait p = true → ctx.traitImplExists s p = false →
      ctx.coerce s = .error e →
      evalProj ctx (.fvar (.unbound nm g s p)) rhs = (.error e, .fvar (.linked .never))) ∧
    ((ctx.isTrait p && !ctx.traitImplExists s p) = false →
      ∀ c, ctx.coerce (.fvar (.unbound nm g s p)) = .ok c →
        (ctx.tyEq (.fvar (.unbound nm g s p)) c = false →
          evalProj ctx (.fvar (.unbound nm g s p)) rhs =
            (ctx.evalTParams (.proj c rhs), .fvar (.unbound nm g s p))) ∧
        (ctx.tyEq (.fvar (.unbound nm g s p)) c = true →
          evalProj ctx (.fvar (.unbound nm g s p)) rhs =
            (.error (.noCandidate (.proj (.fvar (.unbound nm g s p)) rhs)
              (ctx.noCandHint (.proj (.fvar (.unbound nm g s p)) rhs))),
             .fvar (.unbound nm g s p)))) ∧
    (∀ m c, ctx.search (.mono m) none rhs = .notFound → ctx.coerce (.mono m) = .ok c →
      (ctx.tyEq (.mono m) c = false →
        evalProj ctx (.mono m) rhs = (ctx.evalTParams (.proj c rhs), .mono m)) ∧
      (ctx.tyEq (.mono m) c = true →
        evalProj ctx (.mono m) rhs =
          (.error (.noCandidate (.proj (.mono m) rhs)
            (ctx.noCandHint (.proj (.mono m) rhs))), .mono m))) := by
  refine ⟨?_, ?_, ?_, ?_⟩
  · intro s2 p2 ht hi hcs hcp
    simp [evalProj, hnever, hs, ht, hi, hcs, hcp]
  · intro e ht hi hcs
    simp [evalProj, hnever, hs, ht, hi, hcs]
  · intro hguard c hcoerce
    constructor
    · intro hneq
      simp [evalProj, evalProjCoerceRetry, hnever, hs, hguard, hcoerce, hneq]
    · intro heq
      simp [evalProj, evalProjCoerceRetry, hnever, hs, hguard, hcoerce, heq]
  · intro m c hsm hcoerce
    constructor
    · intro hneq
      simp [evalProj, evalProjCoerceRetry, ETy.isNever, hsm, hcoerce, hneq]
    · intro heq
      simp [evalProj, evalProjCoerceRetry, ETy.isNever, hsm, hcoerce, heq]

/-- C2 witness: with every search exhausted, every type a trait with no
implementation and identity coercion, projecting on a bounded variable
yields the "no trait implementation" error and the variable is left
permanently linked to `Never`. -/
theorem eval_proj_fallback_spec_witness :
    evalProj demoCtx (.fvar (.unbound "T" false (.mono "Int") (.mono "Show"))) "Output" =
      (.error (.noTraitImpl (.mono "Int") (.mono "Show") none), .fvar (.linked .never)) :=
  (eval_proj_fallback_spec demoCtx "T" false (.mono "Int") (.mono "Show") "Output"
    rfl rfl).1 (.mono "Int") (.mono "Show") rfl rfl rfl rfl

/-- C10: for every comparison operator, whenever either operand of
`eval_bin_tp` is an unbound (non-linked) free type-parameter variable,
the result is the boolean `true` value — the comparison is assumed to
hold rather than deferred or reported as an error (linked variables on
the other side are cracked first, after which the same rule applies). -/
theorem eval_bin_tp_unbound_fv_cmp_true (ctx : EvalCtx) (op : OpKind) (l r : ETyParam)
    (hc : op.isCmp = true)
    (h : l.isUnboundFvTp = true ∨ r.isUnboundFvTp = true) :
    evalBinTp ctx op l r = .ok (.value (.bool true)) := by
  have main : ∀ (n : Nat) (l2 : ETyParam), sizeOf l2 ≤ n → ∀ (nm : String) (g : Bool),
      evalBinTp ctx op l2 (.fvar (.unbound nm g)) = .ok (.value (.bool true)) := by
    intro n
    induction n using Nat.strong_induction_on with
    | _ n ih =>
      intro l2 hle nm g
      cases l2 with
      | value v => simp [evalBinTp, hc]
      | array es => simp [evalBinTp, hc]
      | type t => simp [evalBinTp, hc]
      | mono s1 => simp [evalBinTp, hc]
      | app s1 args => simp [evalBinTp, hc]
      | bin o2 a b => simp [evalBinTp, hc]
      | erased t =>
        by_cases hsup : ctx.supertypeOf t (ctx.tpTOrObj (.fvar (.unbound nm g))) = true
        · simp [evalBinTp, hc, hsup]
        · simp [evalBinTp, hc, hsup]
      | fvar fv =>
        cases fv with
        | unbound nm2 g2 => simp [evalBinTp, hc]
        | linked t =>
          have hlt : sizeOf t < sizeOf (ETyParam.fvar (FreeTyParamVar.linked t)) := by
            simp_arith
          have hstep : evalBinTp ctx op (.fvar (.linked t)) (.fvar (.unbound nm g)) =
              evalBinTp ctx op t (.fvar (.unbound nm g)) := by
            simp [evalBinTp]
          rw [hstep]
          exact ih (sizeOf t) (lt_of_lt_of_le hlt hle) t le_rfl nm g
        | undoableLinked t prev =>
          have hlt : sizeOf t <
              sizeOf (ETyParam.fvar (FreeTyParamVar.undoableLinked t prev)) := by
            simp_arith
          have hstep :
              evalBinTp ctx op (.fvar (.undoableLinked t prev)) (.fvar (.unbound nm g)) =
              evalBinTp ctx op t (.fvar (.unbound nm g)) := by
            simp [evalBinTp]
          rw [hstep]
          exact ih (sizeOf t) (lt_of_lt_of_le hlt hle) t le_rfl nm g
  rcases h with hl | hr
  · cases l <;> try simp [ETyParam.isUnboundFvTp] at hl
    case fvar fv =>
      cases fv <;> try simp [ETyParam.isUnboundFvTp] at hl
      case unbound nm g =>
        rw [evalBinTp.eq_def]
        simp [hc]
  · cases r <;> try simp [ETyParam.isUnboundFvTp] at hr
    case fvar fv =>
      cases fv <;> try simp [ETyParam.isUnboundFvTp] at hr
      case unbound nm g => exact main (sizeOf l) l le_rfl nm g

/-- C10 witness: `?N == 10` with `?N` unbound evaluates to the `true`
value. -/
theorem eval_bin_tp_unbound_fv_cmp_true_witness :
    evalBinTp demoCtx .eq (.fvar (.unbound "N" false)) (.value (.nat 10)) =
      .ok (.value (.bool true)) :=
  eval_bin_tp_unbound_fv_cmp_true demoCtx .eq (.fvar (.unbound "N" false))
    (.value (.nat 10)) rfl (Or.inl rfl)

end ErgSpec
